import Mathlib

/-!
Verification of the crawl-engine core of the league-of-legends data scraper.

Each Lean definition below is a shallow embedding of a Python function of the
repository, translated statement by statement from the source file named in
its doc comment.  Time is modelled by the rationals, Python lists and deques
by Lean lists, Python sets by insertion-ordered lists (membership is what the
code relies on), and fallible calls by Option.  The cooperative asyncio
scheduler is modelled by explicit interleaving schedules over the atomic
segments between await points.
-/

set_option maxHeartbeats 1000000

namespace Scraper

/-! ### Circuit breaker — src/application/services/health/circuit_breaker.py -/

/-- Per-key state of the breaker (class _State in the source). -/
structure BState where
  failures : Nat := 0
  opened_until : ℚ := 0
  half_open : Bool := false
deriving Repr, DecidableEq

/-- The breaker with its per-key state dictionary. -/
structure CircuitBreaker where
  failure_threshold : Nat
  reset_timeout_s : ℚ
  states : String → Option BState

/-- Constructor: the source clamps both parameters with max(1, _). -/
def CircuitBreaker.init (failure_threshold : Nat := 3) (reset_timeout_s : Nat := 10) :
    CircuitBreaker :=
  { failure_threshold := max 1 failure_threshold
    reset_timeout_s := (max 1 reset_timeout_s : Nat)
    states := fun _ => none }

/-- CircuitBreaker.allow.  Mutates half_open on the expiry path, so it
returns the updated breaker next to the boolean. -/
def CircuitBreaker.allow (cb : CircuitBreaker) (key : String) (now : ℚ) :
    Bool × CircuitBreaker :=
  match cb.states key with
  | none => (true, cb)
  | some st =>
    if now < st.opened_until then (false, cb)
    else if 0 < st.opened_until ∧ st.opened_until ≤ now then
      (true, { cb with
        states := fun k => if k = key then some { st with half_open := true } else cb.states k })
    else (true, cb)

/-- CircuitBreaker.record_success. -/
def CircuitBreaker.record_success (cb : CircuitBreaker) (key : String) : CircuitBreaker :=
  match cb.states key with
  | none => cb
  | some _ =>
    { cb with states := fun k => if k = key then some {} else cb.states k }

/-- CircuitBreaker.record_failure at wall-clock time now. -/
def CircuitBreaker.record_failure (cb : CircuitBreaker) (key : String) (now : ℚ) :
    CircuitBreaker :=
  let st := (cb.states key).getD {}
  let st1 : BState := { st with failures := st.failures + 1 }
  let st2 : BState :=
    if cb.failure_threshold ≤ st1.failures then
      { st1 with
        opened_until := now + cb.reset_timeout_s * (if st1.half_open then 2 else 1)
        half_open := false }
    else st1
  { cb with states := fun k => if k = key then some st2 else cb.states k }

/-- A sequence of record_failure calls at the given times. -/
def CircuitBreaker.record_failures (cb : CircuitBreaker) (key : String)
    (times : List ℚ) : CircuitBreaker :=
  times.foldl (fun c t => c.record_failure key t) cb

/-! ### Retry executor — src/application/services/health/retry_policy.py -/

/-- Result of one supplier invocation: a value or a raised error. -/
inductive SupplierResult (ε α : Type) where
  | ok (a : α)
  | err (e : ε)
deriving Repr, DecidableEq

/-- Outcome of RetryPolicy.run: a returned value, a propagated error, or the
implicit None return when the attempt loop body never runs. -/
inductive RunResult (ε α : Type) where
  | value (a : α)
  | raised (e : ε)
  | fellThrough
deriving Repr, DecidableEq

/-- RetryPolicy dataclass fields. -/
structure RetryPolicy where
  max_attempts : Nat
  backoff_base_ms : Nat := 200
  backoff_factor : ℚ := 2
  jitter_ms : Nat := 0

/-- The attempt loop of RetryPolicy.run.  The supplier is indexed by the
1-based attempt number; the second component counts supplier invocations. -/
def retryGo (p : RetryPolicy) (is_transient : ε → Bool)
    (supplier : Nat → SupplierResult ε α) : Nat → Nat → RunResult ε α × Nat
  | 0, _ => (.fellThrough, 0)
  | fuel + 1, attempt =>
    match supplier attempt with
    | .ok a => (.value a, 1)
    | .err e =>
      if p.max_attempts ≤ attempt ∨ is_transient e = false then (.raised e, 1)
      else
        let r := retryGo p is_transient supplier fuel (attempt + 1)
        (r.1, r.2 + 1)

/-- RetryPolicy.run: attempts range over 1..max_attempts. -/
def RetryPolicy.run (p : RetryPolicy) (is_transient : ε → Bool)
    (supplier : Nat → SupplierResult ε α) : RunResult ε α × Nat :=
  retryGo p is_transient supplier p.max_attempts 1

/-! ### HTTP request loop — src/infrastructure/api/riot_client.py -/

/-- What one attempt of the underlying GET can come back with: an HTTP
response with a status code and parsed body, an httpx network error, or any
other unexpected exception. -/
inductive HttpOutcome (β : Type) where
  | http (code : Nat) (retryAfterSec : Nat) (body : β)
  | networkError
  | unexpectedError
deriving Repr, DecidableEq

/-- The attempt loop of RiotAPIClient._make_request.  The fuel is the number
of remaining loop iterations (range(max_retries + 1)); once the loop ends
the function returns None. -/
def makeRequestGo (max_retries : Nat) (responses : Nat → HttpOutcome β) :
    Nat → Nat → Option β
  | 0, _ => none
  | fuel + 1, attempt =>
    match responses attempt with
    | .http code _ body =>
      if code = 429 then makeRequestGo max_retries responses fuel (attempt + 1)
      else if code = 404 then none
      else if 400 ≤ code then
        if attempt < max_retries then makeRequestGo max_retries responses fuel (attempt + 1)
        else none
      else some body
    | .networkError =>
      if attempt < max_retries then makeRequestGo max_retries responses fuel (attempt + 1)
      else none
    | .unexpectedError => none

/-- RiotAPIClient._make_request. -/
def make_request (max_retries : Nat) (responses : Nat → HttpOutcome β) : Option β :=
  makeRequestGo max_retries responses (max_retries + 1) 0

/-- RiotAPIClient.get_match_ids_by_puuid collapses a failed request to the
empty list (return result if result else []). -/
def get_match_ids_request (max_retries : Nat)
    (responses : Nat → HttpOutcome (List String)) : List String :=
  match make_request max_retries responses with
  | some l => if l = [] then [] else l
  | none => []

/-- A response the Retry Executor taxonomy calls transient-remote: explicit
throttling, a server-side 5xx, or a network-level error. -/
def transientOutcome : HttpOutcome β → Prop
  | .http code _ _ => code = 429 ∨ 500 ≤ code
  | .networkError => True
  | .unexpectedError => False

instance (r : HttpOutcome β) : Decidable (transientOutcome r) := by
  cases r <;> simp [transientOutcome] <;> infer_instance

/-! ### Rate limiter — src/infrastructure/api/rate_limiter.py -/

/-- RateLimiter with its two timestamp deques (front = oldest). -/
structure RateLimiter where
  requests_per_10_sec : Nat
  requests_per_10_min : Nat
  request_times_10_sec : List ℚ
  request_times_10_min : List ℚ
deriving Repr, DecidableEq

def RateLimiter.init (requests_per_10_sec : Nat := 20)
    (requests_per_10_min : Nat := 100) : RateLimiter :=
  { requests_per_10_sec, requests_per_10_min
    request_times_10_sec := [], request_times_10_min := [] }

/-- The popleft-while-expired cleanup at the top of acquire: drop front
entries with now - t > window. -/
def evictWindow (window now : ℚ) (q : List ℚ) : List ℚ :=
  q.dropWhile (fun t => decide (window < now - t))

/-- One iteration of the while loop inside RateLimiter.acquire, at clock
value now: either the request is granted and recorded in both deques, or the
caller must sleep for the computed wait before rechecking. -/
inductive AcquireStep where
  | granted (rl : RateLimiter)
  | waiting (rl : RateLimiter) (wait : ℚ)
deriving Repr, DecidableEq

def RateLimiter.acquireCheck (rl : RateLimiter) (now : ℚ) : AcquireStep :=
  let q10 := evictWindow 10 now rl.request_times_10_sec
  let q600 := evictWindow 600 now rl.request_times_10_min
  let can10 := q10.length < rl.requests_per_10_sec
  let can600 := q600.length < rl.requests_per_10_min
  if can10 ∧ can600 then
    .granted { rl with
      request_times_10_sec := q10 ++ [now]
      request_times_10_min := q600 ++ [now] }
  else
    let w0 : ℚ := 1 / 10
    let w1 := if ¬can10 ∧ q10 ≠ [] then max w0 (10 - (now - q10.headI)) else w0
    let w2 := if ¬can600 ∧ q600 ≠ [] then max w1 (600 - (now - q600.headI)) else w1
    .waiting { rl with request_times_10_sec := q10, request_times_10_min := q600 } w2

/-- A sequence of acquire checks at the given clock values.  Returns the
final limiter state and the list of clock values at which a request was
granted (each granted check records its timestamp, a failed check only
evicts and sleeps). -/
def RateLimiter.runAttempts (rl : RateLimiter) : List ℚ → RateLimiter × List ℚ
  | [] => (rl, [])
  | t :: ts =>
    match rl.acquireCheck t with
    | .granted rl2 =>
      let r := rl2.runAttempts ts
      (r.1, t :: r.2)
    | .waiting rl2 _ => rl2.runAttempts ts

/-- Membership of a timestamp in the closed sliding window starting at a of
the given width (the code keeps a stamp while now - t ≤ width). -/
def inWin (width a t : ℚ) : Bool :=
  decide (a ≤ t) && decide (t ≤ a + width)

/-- Invariant tying a limiter state to the list g of grant times so far:
the limits are those configured, the grant times are ordered and no later
than the last inspection time tl, and each deque holds exactly the grants
still inside its window as of tl. -/
def RLInv (N10 N600 : Nat) (g : List ℚ) (tl : ℚ) (rl : RateLimiter) : Prop :=
  rl.requests_per_10_sec = N10 ∧ rl.requests_per_10_min = N600 ∧
  g.Sorted (· ≤ ·) ∧ (∀ x ∈ g, x ≤ tl) ∧
  rl.request_times_10_sec = g.filter (fun x => decide (tl - x ≤ 10)) ∧
  rl.request_times_10_min = g.filter (fun x => decide (tl - x ≤ 600))

/-! ### Seed discovery — src/application/services/seed/seed_discovery_service.py -/

/-- One leaderboard entry; the source reads the summonerName and summonerId
keys, either of which may be absent or empty (falsy). -/
structure LeagueEntry where
  summonerName : Option String
  summonerId : Option String
deriving Repr, DecidableEq

/-- Python truthiness of an optional string: present and nonempty. -/
def strTruthy : Option String → Bool
  | none => false
  | some s => !(s == "")

/-- The inner entry loop over one league blob: push truthy names and ids,
breaking once count names have been collected.  Acc is (names, ids). -/
def collectBlob (count : Nat) :
    List String × List String → List LeagueEntry → List String × List String
  | acc, [] => acc
  | acc, e :: rest =>
    let names := if strTruthy e.summonerName then acc.1 ++ [e.summonerName.getD ""] else acc.1
    let ids := if strTruthy e.summonerId then acc.2 ++ [e.summonerId.getD ""] else acc.2
    if count ≤ names.length then (names, ids)
    else collectBlob count (names, ids) rest

/-- The outer loop over [challenger, grandmaster, master] blobs; a falsy
blob is skipped, each blob contributes at most its first count entries, and
the loop breaks once count names have been collected. -/
def collectBlobs (count : Nat) :
    List String × List String → List (Option (List LeagueEntry)) → List String × List String
  | acc, [] => acc
  | acc, none :: rest => collectBlobs count acc rest
  | acc, some entries :: rest =>
    let acc2 := collectBlob count acc (entries.take count)
    if count ≤ acc2.1.length then acc2
    else collectBlobs count acc2 rest

/-- Order-preserving deduplication by first occurrence (the seen set loop at
the end of discover_seed_puuids). -/
def dedupFirst (seen : List String) : List String → List String
  | [] => []
  | p :: rest =>
    if p ∈ seen then dedupFirst seen rest
    else p :: dedupFirst (p :: seen) rest

/-- SeedDiscoveryService.discover_seed_puuids.  nameRes models resolving a
summoner name to a PUUID via get_summoner_by_name, idRes models resolving a
summonerId via get_summoner_by_id; a failed or exceptional resolution is
none and is dropped.  When the fast path collects fewer than count names the
source falls into the tier/division fallback loop, whose first call is
api_client.get_league_entries — a method RiotAPIClient does not define — so
the resulting AttributeError is swallowed by the outer except handler and
the function returns the empty list. -/
def discover_seed_puuids (ch gm ms : Option (List LeagueEntry)) (count : Nat)
    (nameRes idRes : String → Option String) : List String :=
  let acc := collectBlobs count ([], []) [ch, gm, ms]
  let summoner_names := acc.1
  let summoner_ids := acc.2
  if summoner_names.length < count then []
  else
    let p1 := if summoner_names ≠ [] then (summoner_names.take count).filterMap nameRes else []
    let p2 :=
      if p1 = [] ∧ summoner_ids ≠ [] then (summoner_ids.take count).filterMap idRes else p1
    (dedupFirst [] p2).take count

/-! ### Crawl engine — src/application/services/data_scraper/data_scraper_service.py

The asyncio batch of `_scrape_puuid` coroutines is modelled as an explicit
interleaving: each coroutine is a sequence of atomic segments separated by
its await points (the match-id fetch and the gathered detail fetches), and a
schedule chooses which task advances next.  `asyncio.gather` returns only
when every task is done, so after the scheduled steps the remaining tasks
are run to completion in order. -/

/-- The fields of the Match entity the crawl engine reads. -/
structure MatchRec where
  matchId : String
  patch_version : String
  participants : List String
deriving Repr, DecidableEq

/-- The settings the crawl loop reads. -/
structure ScrapeCfg where
  MAX_CONCURRENT_REQUESTS : Nat := 16
  MATCHES_PER_SUMMONER : Nat := 20
  IDS_PER_PUUID : Nat := 20
  TARGET_PATCH : String := "16.3"
deriving Repr

/-- External collaborators: the match-id fetch per PUUID (already windowed
to the target period), the match-detail fetch, and the seed provider indexed
by the number of discover calls made so far. -/
structure ScrapeEnv where
  matchIds : String → List String
  detail : String → Option MatchRec
  seeds : Nat → List String

/-- The shared mutable sets of DataScraperService, plus an instrumentation
log of every match id handed to a detail fetch. -/
structure SState where
  scraped_match_ids : List String := []
  scraped_puuids : List String := []
  processed_puuids : List String := []
  fetchLog : List String := []
deriving Repr, DecidableEq

/-- Python str.lower, given by mapping the character-wise lowering over the
underlying character list. -/
def strLower (s : String) : String := ⟨s.data.map Char.toLower⟩

/-- Python str.startswith, given by the prefix test on the underlying
character lists. -/
def strStartsWith (s pre : String) : Bool := pre.data.isPrefixOf s.data

/-- The patch filter in _fetch_match_details. -/
def patchOk (target pv : String) : Bool :=
  let t := strLower target
  if t ≠ "" ∧ t ∉ (["any", "all", "*"] : List String) then
    let p := strLower pv
    p == t || strStartsWith p t
  else true

/-- The zip loop of _fetch_match_details over the fetched details: skip
failed or off-patch results, record each kept id in scraped_match_ids, and
collect participants not yet in scraped_puuids.  The accumulator carries the
collected match records and the new puuids. -/
def detailsLoop (cfg : ScrapeCfg) (env : ScrapeEnv) :
    List String → SState → List MatchRec → List String →
    SState × List MatchRec × List String
  | [], s, ms, ps => (s, ms, ps)
  | mid :: rest, s, ms, ps =>
    match env.detail mid with
    | none => detailsLoop cfg env rest s ms ps
    | some mtch =>
      if patchOk cfg.TARGET_PATCH mtch.patch_version then
        let s2 := { s with scraped_match_ids := s.scraped_match_ids ++ [mid] }
        let newPs := mtch.participants.filter
          (fun q => decide (q ≠ "" ∧ q ∉ s2.scraped_puuids))
        detailsLoop cfg env rest s2 (ms ++ [mtch]) (ps ++ newPs)
      else detailsLoop cfg env rest s ms ps

/-- The resume points of one _scrape_puuid coroutine. -/
inductive TaskPhase where
  | start
  | awaitingIds
  | awaitingDetails (newIds : List String)
  | done (res : Option (List MatchRec × List String))
deriving Repr, DecidableEq

/-- One atomic segment of _scrape_puuid for candidate p.  start: the
processed_puuids check-and-mark before the match-id await.  awaitingIds: the
ids have arrived; filter against scraped_match_ids and start the detail
fetches (recorded in fetchLog).  awaitingDetails: the details have arrived;
run the _fetch_match_details body. -/
def taskStep (cfg : ScrapeCfg) (env : ScrapeEnv) (limit : Nat) (p : String) :
    SState → TaskPhase → SState × TaskPhase
  | s, .start =>
    if p ∈ s.processed_puuids then (s, .done none)
    else ({ s with processed_puuids := s.processed_puuids ++ [p] }, .awaitingIds)
  | s, .awaitingIds =>
    let match_ids := (env.matchIds p).take (min cfg.IDS_PER_PUUID limit)
    if match_ids = [] then (s, .done (some ([], [])))
    else
      let new_ids := match_ids.filter (fun m => decide (m ∉ s.scraped_match_ids))
      if new_ids = [] then (s, .done (some ([], [])))
      else
        let fetched := new_ids.take limit
        ({ s with fetchLog := s.fetchLog ++ fetched }, .awaitingDetails fetched)
  | s, .awaitingDetails newIds =>
    let r := detailsLoop cfg env newIds s [] []
    (r.1, .done (some (r.2.1, r.2.2)))
  | s, .done r => (s, .done r)

/-- Advance the i-th task of the batch by one segment. -/
def stepTaskAt (cfg : ScrapeCfg) (env : ScrapeEnv) (limit : Nat)
    (st : SState × List (String × TaskPhase)) (i : Nat) :
    SState × List (String × TaskPhase) :=
  match st.2.get? i with
  | none => st
  | some (p, ph) =>
    let r := taskStep cfg env limit p st.1 ph
    (r.1, st.2.set i (p, r.2))

/-- Run the scheduler choices of one batch. -/
def runSchedule (cfg : ScrapeCfg) (env : ScrapeEnv) (limit : Nat) :
    List Nat → SState × List (String × TaskPhase) → SState × List (String × TaskPhase)
  | [], st => st
  | i :: rest, st => runSchedule cfg env limit rest (stepTaskAt cfg env limit st i)

/-- Run one task to its done phase (every phase reaches done within three
segments). -/
def taskRunToDone (cfg : ScrapeCfg) (env : ScrapeEnv) (limit : Nat) (p : String)
    (s : SState) (ph : TaskPhase) : SState × Option (List MatchRec × List String) :=
  let r1 := taskStep cfg env limit p s ph
  let r2 := taskStep cfg env limit p r1.1 r1.2
  let r3 := taskStep cfg env limit p r2.1 r2.2
  match r3.2 with
  | .done r => (r3.1, r)
  | _ => (r3.1, none)

/-- Finish every remaining task in batch order and collect the results in
that order, as asyncio.gather does. -/
def finishAll (cfg : ScrapeCfg) (env : ScrapeEnv) (limit : Nat) :
    SState → List (String × TaskPhase) → SState × List (Option (List MatchRec × List String))
  | s, [] => (s, [])
  | s, (p, ph) :: rest =>
    let r := taskRunToDone cfg env limit p s ph
    let rs := finishAll cfg env limit r.1 rest
    (rs.1, r.2 :: rs.2)

/-- Run one gathered batch under the given interleaving schedule. -/
def runBatch (cfg : ScrapeCfg) (env : ScrapeEnv) (limit : Nat) (sched : List Nat)
    (batch : List String) (s : SState) :
    SState × List (Option (List MatchRec × List String)) :=
  let tasks0 := batch.map (fun p => (p, TaskPhase.start))
  let st1 := runSchedule cfg env limit sched (s, tasks0)
  finishAll cfg env limit st1.1 st1.2

/-- The seed / participant enqueue filter: append each puuid that is in
neither scraped_puuids nor processed_puuids, marking it scraped. -/
def enqueueAll : SState → List String → List String → SState × List String
  | s, q, [] => (s, q)
  | s, q, p :: rest =>
    if p ∉ s.scraped_puuids ∧ p ∉ s.processed_puuids then
      enqueueAll { s with scraped_puuids := s.scraped_puuids ++ [p] } (q ++ [p]) rest
    else enqueueAll s q rest

/-- Whether the job has reached its target count. -/
def isAtTarget (maxM : Option Nat) (collected : List MatchRec) : Prop :=
  match maxM with
  | some m => m ≤ collected.length
  | none => False

instance (maxM : Option Nat) (collected : List MatchRec) :
    Decidable (isAtTarget maxM collected) := by
  cases maxM <;> simp [isAtTarget] <;> infer_instance

/-- The result-processing loop after a gathered batch: skip failed tasks,
append the match records of each task truncated to the remaining room,
enqueue its new participants, and break once the target is reached.  Returns
the collected match records, the queue, the shared state and batch_new. -/
def foldResults (maxM : Option Nat) :
    List (Option (List MatchRec × List String)) →
    List MatchRec → List String → SState → Nat →
    List MatchRec × List String × SState × Nat
  | [], ms, q, s, bn => (ms, q, s, bn)
  | none :: rest, ms, q, s, bn => foldResults maxM rest ms q s bn
  | some (nm, np) :: rest, ms, q, s, bn =>
    let cap : Nat := match maxM with | some m => m - ms.length | none => nm.length
    let chunk := nm.take cap
    let ms2 := ms ++ chunk
    let bn2 := bn + chunk.length
    let r := enqueueAll s q np
    if isAtTarget maxM ms2 then (ms2, r.2, r.1, bn2)
    else foldResults maxM rest ms2 r.2 r.1 bn2

/-- The while loop of scrape_matches_by_date_window.  Arguments after maxM:
remaining fuel (a modelling artifact: each loop iteration consumes one unit),
the batch index (selecting the schedule of that batch), the number of seed
discover calls made so far, the shared state, the puuid queue, the collected
match records and the consecutive-empty-round counter.  Returns none on fuel
exhaustion, otherwise the collected match records, the final state and the
number of discover calls. -/
def scrapeLoop (cfg : ScrapeCfg) (env : ScrapeEnv) (sch : Nat → List Nat)
    (maxM : Option Nat) :
    Nat → Nat → Nat → SState → List String → List MatchRec → Nat →
    Option (List MatchRec × SState × Nat)
  | 0, _, _, _, _, _, _ => none
  | fuel + 1, bi, sc, s, queue, collected, er =>
    if isAtTarget maxM collected then some (collected, s, sc)
    else if queue = [] then
      let er2 := er + 1
      if 5 ≤ er2 then some (collected, s, sc)
      else
        let r := enqueueAll s [] (env.seeds sc)
        if r.2 = [] then scrapeLoop cfg env sch maxM fuel bi (sc + 1) r.1 [] collected er2
        else scrapeLoop cfg env sch maxM fuel bi (sc + 1) r.1 r.2 collected 0
    else
      let bsize := min cfg.MAX_CONCURRENT_REQUESTS queue.length
      let batch := queue.take bsize
      let queue2 := queue.drop bsize
      let room := match maxM with
        | some m => max 1 (m - collected.length)
        | none => cfg.MATCHES_PER_SUMMONER
      let limit := min cfg.MATCHES_PER_SUMMONER room
      let rb := runBatch cfg env limit (sch bi) batch s
      let fr := foldResults maxM rb.2 collected queue2 rb.1 0
      let er2 := if fr.2.2.2 = 0 then er + 1 else 0
      scrapeLoop cfg env sch maxM fuel (bi + 1) sc fr.2.2.1 fr.2.1 fr.1 er2

/-- The caller-supplied seed loop at the top of scrape_matches_by_date_window. -/
def addSeeds : SState → List String → SState
  | s, [] => s
  | s, p :: rest =>
    if p ≠ "" ∧ p ∉ s.scraped_puuids then
      addSeeds { s with scraped_puuids := s.scraped_puuids ++ [p] } rest
    else addSeeds s rest

/-- _fresh_puuids: known puuids not yet processed (set iteration order
modelled as insertion order). -/
def freshPuuids (s : SState) : List String :=
  s.scraped_puuids.filter (fun p => decide (p ∉ s.processed_puuids))

/-- Relation between a shared scraper state and the set S0 of match ids
pre-loaded at job start: the current global set still contains every
pre-loaded id, and no pre-loaded id has ever been handed to a detail
fetch. -/
def FetchOk (S0 : List String) (s : SState) : Prop :=
  (∀ x ∈ S0, x ∈ s.scraped_match_ids) ∧ (∀ m ∈ s.fetchLog, m ∉ S0)

/-- scrape_matches_by_date_window.  The bootstrap branch taken when no seed
is available is not part of the modelled runs: the claims under study all
seed the job, so an empty initial queue is mapped to none, matching the
raised ValueError in that no result list is produced. -/
def scrape_matches_by_date_window (cfg : ScrapeCfg) (env : ScrapeEnv)
    (sch : Nat → List Nat) (fuel : Nat) (s0 : SState) (seed_puuids : List String)
    (maxM : Option Nat) : Option (List MatchRec × SState × Nat) :=
  let s1 := addSeeds s0 seed_puuids
  let queue := freshPuuids s1
  if queue = [] then none
  else scrapeLoop cfg env sch maxM fuel 0 0 s1 queue [] 0

/-! ### Concrete scenarios used by the claims -/

/-- Exhaustion scenario: the match-id fetch always returns an empty list and
the seed provider always returns an empty list. -/
def envExhausted : ScrapeEnv := ⟨fun _ => [], fun _ => none, fun _ => []⟩

/-- Target-count scenario: two seed candidates a and b whose match-id
fetches return three fresh on-patch ids each, every detail on-target with
two new participants. -/
def envTarget : ScrapeEnv :=
  ⟨fun p => if p = "a" then ["m1", "m2", "m3"]
            else if p = "b" then ["m4", "m5", "m6"] else [],
   fun mid => some ⟨mid, "16.3", ["q" ++ mid, "r" ++ mid]⟩,
   fun _ => []⟩

/-- Shared-match scenario: two candidates whose match-id fetches both return
the single id m, with an on-target detail. -/
def envShared : ScrapeEnv :=
  ⟨fun p => if p = "c1" ∨ p = "c2" then ["m"] else [],
   fun mid => some ⟨mid, "16.3", []⟩,
   fun _ => []⟩

/-- An interleaving of the first batch in which both tasks run their
check-against-scraped_match_ids segment before either runs its insert
segment. -/
def schShared : Nat → List Nat := fun i => if i = 0 then [0, 0, 1, 1, 0, 1] else []

/-- The shared-match scenario started with a pre-loaded global match id. -/
def sPreloaded : SState := { scraped_match_ids := ["old"] }

/-- The concrete completed run of the shared-match scenario from the
pre-loaded state. -/
def runPreloaded : Option (List MatchRec × SState × Nat) :=
  scrape_matches_by_date_window {} envShared schShared 12 sPreloaded ["c1", "c2"] none

/-- A breaker opened by three failures at time 0 with threshold 3. -/
def cbOpened : CircuitBreaker := (CircuitBreaker.init 3 10).record_failures "h" [0, 0, 0]

/-- A limiter with limits 2/2 that granted requests at times 0 and 5. -/
def rlBursted : RateLimiter := ((RateLimiter.init 2 2).runAttempts [0, 5]).1

/-- A retry policy configured with a zero attempt budget. -/
def polZero : RetryPolicy := { max_attempts := 0 }

/-- Fast-path leaderboard with one entry carrying both a name and an id. -/
def chBoth : Option (List LeagueEntry) := some [⟨some "n", some "i"⟩]

/-- Name resolver of the seed-discovery scenario. -/
def nameResScn : String → Option String := fun s => if s = "n" then some "p1" else none

/-- Id resolver of the seed-discovery scenario. -/
def idResScn : String → Option String := fun s => if s = "i" then some "p2" else none

/-! ### Circuit breaker lemmas -/

theorem record_failure_threshold (cb : CircuitBreaker) (key : String) (now : ℚ) :
    (cb.record_failure key now).failure_threshold = cb.failure_threshold := rfl

theorem record_failure_timeout (cb : CircuitBreaker) (key : String) (now : ℚ) :
    (cb.record_failure key now).reset_timeout_s = cb.reset_timeout_s := rfl

theorem record_failures_threshold (key : String) (ts : List ℚ) (cb : CircuitBreaker) :
    (cb.record_failures key ts).failure_threshold = cb.failure_threshold := by
  induction ts generalizing cb with
  | nil => rfl
  | cons t ts ih => simpa [CircuitBreaker.record_failures] using ih (cb.record_failure key t)

theorem record_failures_timeout (key : String) (ts : List ℚ) (cb : CircuitBreaker) :
    (cb.record_failures key ts).reset_timeout_s = cb.reset_timeout_s := by
  induction ts generalizing cb with
  | nil => rfl
  | cons t ts ih => simpa [CircuitBreaker.record_failures] using ih (cb.record_failure key t)

/-- Failures below the threshold only bump the counter: starting from a
clean counter value k, a run of failures too short to reach the threshold
leaves an un-opened state with the counter advanced by its length. -/
theorem record_failures_below (key : String) (ts : List ℚ) (cb : CircuitBreaker) (k : Nat)
    (hst : (cb.states key).getD {} = { failures := k, opened_until := 0, half_open := false })
    (hlt : k + ts.length < cb.failure_threshold) :
    ((cb.record_failures key ts).states key).getD {} =
      { failures := k + ts.length, opened_until := 0, half_open := false } := by
  induction ts generalizing cb k with
  | nil => simpa [CircuitBreaker.record_failures] using hst
  | cons t ts ih =>
    have hnotyet : ¬ cb.failure_threshold ≤ k + 1 := by
      simp only [List.length_cons] at hlt
      omega
    have hstep : ((cb.record_failure key t).states key).getD {} =
        { failures := k + 1, opened_until := 0, half_open := false } := by
      simp [CircuitBreaker.record_failure, hst, hnotyet]
    have := ih (cb.record_failure key t) (k + 1) hstep
      (by simp only [List.length_cons] at hlt
          simpa [record_failure_threshold] using (by omega : k + 1 + ts.length < cb.failure_threshold))
    have hk : k + 1 + ts.length = k + (ts.length + 1) := by omega
    rw [hk] at this
    simpa [CircuitBreaker.record_failures] using this

/-- The state of the breaker after a threshold-reaching run of failures
whose last call happens at time t. -/
theorem record_failures_opens (cb : CircuitBreaker) (key : String) (ts : List ℚ) (t : ℚ)
    (hfresh : cb.states key = none)
    (hlen : ts.length + 1 = cb.failure_threshold) :
    (cb.record_failures key (ts ++ [t])).states key =
      some { failures := ts.length + 1, opened_until := t + cb.reset_timeout_s,
             half_open := false } := by
  have hsplit : cb.record_failures key (ts ++ [t]) =
      (cb.record_failures key ts).record_failure key t := by
    simp [CircuitBreaker.record_failures]
  have hbelow : ((cb.record_failures key ts).states key).getD {} =
      { failures := ts.length, opened_until := 0, half_open := false } := by
    have := record_failures_below key ts cb 0 (by simp [hfresh]) (by omega)
    simpa using this
  have hth1 : (cb.record_failures key ts).failure_threshold = cb.failure_threshold :=
    record_failures_threshold key ts cb
  have hrt1 : (cb.record_failures key ts).reset_timeout_s = cb.reset_timeout_s :=
    record_failures_timeout key ts cb
  have hcond : (cb.record_failures key ts).failure_threshold ≤ ts.length + 1 := by
    rw [hth1]; omega
  rw [hsplit]
  simp [CircuitBreaker.record_failure, hbelow, hcond, hrt1]

/-- C4: after failure_threshold consecutive record_failure calls ending at
time t on a fresh key, allow is false at t and becomes true exactly once
reset_timeout_s has elapsed; record_success at any point zeroes the failure
counter and clears the open and half-open state, after which allow permits
calls again. -/
theorem C4_breaker_threshold_and_reset
    (cb : CircuitBreaker) (key : String) (ts : List ℚ) (t : ℚ)
    (hfresh : cb.states key = none)
    (hrt : 1 ≤ cb.reset_timeout_s)
    (hlen : ts.length + 1 = cb.failure_threshold)
    (ht : 0 ≤ t) :
    ((cb.record_failures key (ts ++ [t])).allow key t).1 = false ∧
    (∀ t2 : ℚ, (((cb.record_failures key (ts ++ [t])).allow key t2).1 = true ↔
      t + cb.reset_timeout_s ≤ t2)) ∧
    (∀ (cb3 : CircuitBreaker) (t3 : ℚ), 0 ≤ t3 →
      ((cb3.record_success key).allow key t3).1 = true ∧
      ∀ st, (cb3.record_success key).states key = some st →
        st.failures = 0 ∧ st.opened_until = 0 ∧ st.half_open = false) := by
  have hstate := record_failures_opens cb key ts t hfresh hlen
  have hpos : 0 < t + cb.reset_timeout_s := by linarith
  refine ⟨?_, ?_, ?_⟩
  · have hlt : t < t + cb.reset_timeout_s := by linarith
    simp [CircuitBreaker.allow, hstate, hlt]
  · intro t2
    by_cases h2 : t + cb.reset_timeout_s ≤ t2
    · have hnlt : ¬ t2 < t + cb.reset_timeout_s := not_lt.mpr h2
      simp [CircuitBreaker.allow, hstate, hnlt, hpos, h2]
    · have hlt : t2 < t + cb.reset_timeout_s := not_le.mp h2
      simp [CircuitBreaker.allow, hstate, hlt, h2]
  · intro cb3 t3 ht3
    cases hst : cb3.states key with
    | none =>
      constructor
      · simp [CircuitBreaker.record_success, hst, CircuitBreaker.allow]
      · intro st hsome
        rw [CircuitBreaker.record_success, hst] at hsome
        simp [hst] at hsome
    | some st0 =>
      have hupd : (cb3.record_success key).states key = some {} := by
        simp [CircuitBreaker.record_success, hst]
      constructor
      · have hnlt : ¬ t3 < (0 : ℚ) := not_lt.mpr ht3
        simp [CircuitBreaker.allow, hupd, hnlt]
      · intro st hsome
        rw [hupd] at hsome
        injection hsome with h
        subst h
        exact ⟨rfl, rfl, rfl⟩

/-- Concrete instantiation of the C4 theorem: breaker with threshold 3 and
reset timeout 10, three failures at time 0. -/
theorem C4_breaker_witness :
    (((CircuitBreaker.init 3 10).record_failures "h" ([0, 0] ++ [0])).allow "h" 0).1 = false ∧
    (((CircuitBreaker.init 3 10).record_failures "h" ([0, 0] ++ [0])).allow "h" 10).1 = true ∧
    (((CircuitBreaker.init 3 10).record_failures "h" ([0, 0] ++ [0])).allow "h" 9).1 ≠ true := by
  have h := C4_breaker_threshold_and_reset (CircuitBreaker.init 3 10) "h" [0, 0] 0
    rfl (by norm_num [CircuitBreaker.init]) (by norm_num [CircuitBreaker.init]) le_rfl
  refine ⟨h.1, ?_, ?_⟩
  · exact (h.2.1 10).mpr (by norm_num [CircuitBreaker.init])
  · intro hc
    have := (h.2.1 9).mp hc
    norm_num [CircuitBreaker.init] at this

/-- allow grants whenever the stored open-until stamp is not in the future. -/
theorem allow_true_of_not_lt (cb : CircuitBreaker) (key : String) (now : ℚ)
    (h : ∀ st, cb.states key = some st → ¬ now < st.opened_until) :
    (cb.allow key now).1 = true := by
  cases hst : cb.states key with
  | none => simp [CircuitBreaker.allow, hst]
  | some st =>
    have hn := h st hst
    simp only [CircuitBreaker.allow, hst, if_neg hn]
    split_ifs <;> rfl

/-- allow never changes the open-until stamp of the key it inspects. -/
theorem allow_snd_opened (cb : CircuitBreaker) (key : String) (now : ℚ) (st2 : BState)
    (hst2 : (cb.allow key now).2.states key = some st2) :
    ∃ st, cb.states key = some st ∧ st2.opened_until = st.opened_until := by
  cases hst : cb.states key with
  | none =>
    rw [CircuitBreaker.allow, hst] at hst2
    rw [hst2] at hst
    exact absurd hst (by simp)
  | some st =>
    refine ⟨st, rfl, ?_⟩
    simp only [CircuitBreaker.allow, hst] at hst2
    by_cases h1 : now < st.opened_until
    · rw [if_pos h1] at hst2
      rw [hst] at hst2
      injection hst2 with h
      rw [h]
    · rw [if_neg h1] at hst2
      by_cases h2 : 0 < st.opened_until ∧ st.opened_until ≤ now
      · rw [if_pos h2] at hst2
        simp at hst2
        rw [← hst2]
      · rw [if_neg h2] at hst2
        rw [hst] at hst2
        injection hst2 with h
        rw [h]

/-- A granted allow means the stored stamp was not in the future. -/
theorem allow_true_opened_le (cb : CircuitBreaker) (key : String) (now : ℚ)
    (h : (cb.allow key now).1 = true) (st : BState) (hst : cb.states key = some st) :
    st.opened_until ≤ now := by
  by_contra hlt
  push_neg at hlt
  simp [CircuitBreaker.allow, hst, hlt] at h

/-- C7 (counterexample): with threshold 3 and reset timeout 10, after three
failures at time 0 the expiry of the open window at time 11 lets allow
through, and a second allow at time 11 — before any record_success or
record_failure — is permitted as well, contradicting the claim that only a
single probing call is allowed through. -/
theorem cbOpened_state :
    cbOpened.states "h" = some { failures := 3, opened_until := 10, half_open := false } := by
  have h := record_failures_opens (CircuitBreaker.init 3 10) "h" [0, 0] 0 rfl
    (by norm_num [CircuitBreaker.init])
  have hdef : cbOpened = (CircuitBreaker.init 3 10).record_failures "h" ([0, 0] ++ [0]) := rfl
  rw [hdef, h]
  norm_num [CircuitBreaker.init]

theorem cbOpened_first_allow : (cbOpened.allow "h" 11).1 = true := by
  have h1 : ¬ (11 : ℚ) < 10 := by norm_num
  have h2 : (0 : ℚ) < 10 := by norm_num
  have h3 : (10 : ℚ) ≤ 11 := by norm_num
  simp [CircuitBreaker.allow, cbOpened_state, h1, h2, h3]

theorem C7_second_probe_allowed :
    (cbOpened.allow "h" 11).1 = true ∧
    (((cbOpened.allow "h" 11).2).allow "h" 11).1 = true := by
  have h1 : ¬ (11 : ℚ) < 10 := by norm_num
  have h2 : (0 : ℚ) < 10 := by norm_num
  have h3 : (10 : ℚ) ≤ 11 := by norm_num
  have hupd : (cbOpened.allow "h" 11).2.states "h" =
      some { failures := 3, opened_until := 10, half_open := true } := by
    simp [CircuitBreaker.allow, cbOpened_state, h1, h2, h3]
  refine ⟨cbOpened_first_allow, ?_⟩
  apply allow_true_of_not_lt
  intro st hst
  rw [hupd] at hst
  injection hst with h
  rw [← h]
  norm_num

/-- C7 (amended): once allow grants for a key, every later allow before the
next record_success or record_failure for that key also grants — the
breaker does not restrict the half-open phase to a single probing call. -/
theorem C7_amended_every_probe_allowed (cb : CircuitBreaker) (key : String)
    (now now2 : ℚ) (hle : now ≤ now2) (h : (cb.allow key now).1 = true) :
    (((cb.allow key now).2).allow key now2).1 = true := by
  apply allow_true_of_not_lt
  intro st2 hst2
  obtain ⟨st, hst, heq⟩ := allow_snd_opened cb key now st2 hst2
  have hle1 : st.opened_until ≤ now := allow_true_opened_le cb key now h st hst
  rw [heq]
  exact not_lt.mpr (le_trans hle1 hle)

/-- Concrete instantiation of the amended C7 theorem at the opened breaker. -/
theorem C7_amended_witness :
    (((cbOpened.allow "h" 11).2).allow "h" 12).1 = true :=
  C7_amended_every_probe_allowed cbOpened "h" 11 12 (by norm_num) cbOpened_first_allow

/-! ### Retry executor theorems -/

/-- C9 (counterexample): with max_attempts configured to 0 the attempt loop
body never runs, so the supplier is invoked zero times — not exactly once —
and run returns the implicit None instead of propagating anything. -/
theorem C9_zero_attempts_counterexample :
    (polZero.run (fun _ : Unit => false)
      (fun _ => (SupplierResult.err () : SupplierResult Unit Unit))).2 = 0 ∧
    (polZero.run (fun _ : Unit => false)
      (fun _ => (SupplierResult.err () : SupplierResult Unit Unit))).1 = .fellThrough ∧
    (0 : Nat) ≠ 1 := by
  refine ⟨rfl, rfl, by decide⟩

/-- C9 (amended): for every retry policy with at least one attempt, when
is_transient always returns false the supplier is invoked exactly once, a
first-attempt value is returned and a first-attempt failure propagates
immediately. -/
theorem C9_terminal_short_circuit (p : RetryPolicy) (hp : 1 ≤ p.max_attempts)
    (supplier : Nat → SupplierResult ε α) :
    (p.run (fun _ => false) supplier).2 = 1 ∧
    (∀ a, supplier 1 = .ok a → (p.run (fun _ => false) supplier).1 = .value a) ∧
    (∀ e, supplier 1 = .err e → (p.run (fun _ => false) supplier).1 = .raised e) := by
  obtain ⟨k, hk⟩ : ∃ k, p.max_attempts = k + 1 :=
    ⟨p.max_attempts - 1, by omega⟩
  cases hs : supplier 1 with
  | ok a =>
    refine ⟨?_, ?_, ?_⟩
    · simp [RetryPolicy.run, hk, retryGo, hs]
    · intro a2 hs2
      injection hs2 with h
      subst h
      simp [RetryPolicy.run, hk, retryGo, hs]
    · intro e hs2
      exact absurd hs2 (by simp)
  | err e =>
    refine ⟨?_, ?_, ?_⟩
    · simp [RetryPolicy.run, hk, retryGo, hs]
    · intro a hs2
      exact absurd hs2 (by simp)
    · intro e2 hs2
      injection hs2 with h
      subst h
      simp [RetryPolicy.run, hk, retryGo, hs]

/-- Concrete instantiation of the amended C9 theorem: three attempts
configured, a terminal failure on the first call. -/
theorem C9_terminal_short_circuit_witness :
    (({ max_attempts := 3 } : RetryPolicy).run (fun _ => false)
      (fun _ => (SupplierResult.err 7 : SupplierResult Nat Nat))).2 = 1 ∧
    (({ max_attempts := 3 } : RetryPolicy).run (fun _ => false)
      (fun _ => (SupplierResult.err 7 : SupplierResult Nat Nat))).1 = .raised 7 := by
  have h := C9_terminal_short_circuit ({ max_attempts := 3 } : RetryPolicy) (by decide)
    (fun _ => (SupplierResult.err 7 : SupplierResult Nat Nat))
  exact ⟨h.1, h.2.2 7 rfl⟩

/-! ### HTTP request loop theorems -/

/-- Every attempt of the loop on an all-transient response stream ends in
none. -/
theorem makeRequestGo_transient_none (max_retries : Nat)
    (responses : Nat → HttpOutcome β) (h : ∀ i, transientOutcome (responses i)) :
    ∀ fuel attempt, makeRequestGo max_retries responses fuel attempt = none := by
  intro fuel
  induction fuel with
  | zero => intro attempt; rfl
  | succ f ih =>
    intro attempt
    have ht := h attempt
    cases hr : responses attempt with
    | http code ra body =>
      rw [hr] at ht
      rcases ht with h429 | h5xx
      · simp [makeRequestGo, hr, h429, ih]
      · have hn429 : code ≠ 429 ∨ code = 429 := by tauto
        by_cases hc : code = 429
        · simp [makeRequestGo, hr, hc, ih]
        · have h404 : ¬ code = 404 := by omega
          have h400 : 400 ≤ code := by omega
          simp only [makeRequestGo, hr, if_neg hc, if_neg h404, if_pos h400]
          split_ifs
          · exact ih (attempt + 1)
          · rfl
    | networkError =>
      simp only [makeRequestGo, hr]
      split_ifs
      · exact ih (attempt + 1)
      · rfl
    | unexpectedError =>
      rw [hr] at ht
      exact absurd ht (by simp [transientOutcome])

/-- C6 (counterexample): a server error persisting past the retry budget
makes _make_request return None — the very value a single not-found
response produces — and the match-id wrapper turns it into the empty list,
so an exhausted transient failure is indistinguishable from a not-found or
zero-match result instead of propagating as an error. -/
theorem C6_exhausted_retries_return_none :
    make_request 3 (fun _ => HttpOutcome.http 500 0 (["x"] : List String)) = none ∧
    make_request 3 (fun _ => HttpOutcome.http 500 0 (["x"] : List String)) =
      make_request 3 (fun _ => HttpOutcome.http 404 0 (["x"] : List String)) ∧
    get_match_ids_request 3 (fun _ => HttpOutcome.http 500 0 ["x"]) = [] := by
  refine ⟨by decide, by decide, by decide⟩

/-- C6 (amended): when every attempt yields a transient-remote failure
(throttling, 5xx or network error), _make_request returns None once the
budget is exhausted and the match-id fetch reports the empty list — the
failure is absorbed, not surfaced as an error. -/
theorem C6_transient_exhaustion_absorbed (max_retries : Nat)
    (responses : Nat → HttpOutcome (List String))
    (h : ∀ i, transientOutcome (responses i)) :
    make_request max_retries responses = none ∧
    get_match_ids_request max_retries responses = [] := by
  have hm := makeRequestGo_transient_none max_retries responses h (max_retries + 1) 0
  refine ⟨hm, ?_⟩
  simp [get_match_ids_request, make_request] at hm ⊢
  rw [hm]

/-- Concrete instantiation of the amended C6 theorem: persistent network
errors. -/
theorem C6_transient_exhaustion_witness :
    make_request 3 (fun _ => (HttpOutcome.networkError : HttpOutcome (List String))) = none ∧
    get_match_ids_request 3 (fun _ => HttpOutcome.networkError) = [] :=
  C6_transient_exhaustion_absorbed 3 (fun _ => HttpOutcome.networkError)
    (fun _ => by simp [transientOutcome])

/-! ### Seed discovery theorems -/

/-- C10 (counterexample): a leaderboard entry carrying both a summoner name
and a summonerId is resolved through the name — the two-hop path — even
though the id resolver would have yielded a different PUUID, so id-based
resolution is not primary. -/
theorem C10_name_resolved_first :
    discover_seed_puuids chBoth none none 1 nameResScn idResScn = ["p1"] ∧
    ("p2" : String) ∉ discover_seed_puuids chBoth none none 1 nameResScn idResScn ∧
    nameResScn "n" = some "p1" ∧ idResScn "i" = some "p2" ∧ ("p1" : String) ≠ "p2" := by
  refine ⟨by decide, by decide, rfl, rfl, by decide⟩

/-- C10 (amended): name-based resolution is primary — whenever it yields at
least one PUUID, the discovery result does not depend on the id resolver at
all; id-based resolution is used only as a fallback when the name pipeline
yields nothing. -/
theorem C10_id_resolution_fallback_only (ch gm ms : Option (List LeagueEntry))
    (count : Nat) (nameRes idRes idRes2 : String → Option String)
    (hcnt : count ≤ (collectBlobs count ([], []) [ch, gm, ms]).1.length)
    (hne : ((collectBlobs count ([], []) [ch, gm, ms]).1.take count).filterMap nameRes ≠ []) :
    discover_seed_puuids ch gm ms count nameRes idRes =
      discover_seed_puuids ch gm ms count nameRes idRes2 := by
  have hnlt : ¬ (collectBlobs count ([], []) [ch, gm, ms]).1.length < count := not_lt.mpr hcnt
  have hnames : (collectBlobs count ([], []) [ch, gm, ms]).1 ≠ [] := by
    intro hnil
    apply hne
    rw [hnil]
    simp
  have hno : ¬ (((collectBlobs count ([], []) [ch, gm, ms]).1.take count).filterMap nameRes = [] ∧
      (collectBlobs count ([], []) [ch, gm, ms]).2 ≠ []) := by
    intro hand
    exact hne hand.1
  simp only [discover_seed_puuids, if_neg hnlt, if_pos hnames, if_neg hno]

/-- Concrete instantiation of the amended C10 theorem: with a resolvable
name present, replacing the id resolver by one that resolves nothing leaves
the discovery result unchanged. -/
theorem C10_id_resolution_fallback_witness :
    discover_seed_puuids chBoth none none 1 nameResScn idResScn =
      discover_seed_puuids chBoth none none 1 nameResScn (fun _ => none) :=
  C10_id_resolution_fallback_only chBoth none none 1 nameResScn idResScn (fun _ => none)
    (by decide) (by decide)

/-! ### Rate limiter sleep-time theorems -/

theorem rlBursted_first_step : (RateLimiter.init 2 2).acquireCheck 0 =
    .granted (⟨2, 2, [0], [0]⟩ : RateLimiter) := by
  norm_num [RateLimiter.acquireCheck, RateLimiter.init, evictWindow]

theorem rlBursted_second_step : (⟨2, 2, [0], [0]⟩ : RateLimiter).acquireCheck 5 =
    .granted (⟨2, 2, [0, 5], [0, 5]⟩ : RateLimiter) := by
  norm_num [RateLimiter.acquireCheck, evictWindow, List.dropWhile_cons]

theorem rlBursted_eq : rlBursted = (⟨2, 2, [0, 5], [0, 5]⟩ : RateLimiter) := by
  show (((RateLimiter.init 2 2).runAttempts [0, 5])).1 = _
  simp only [RateLimiter.runAttempts, rlBursted_first_step, rlBursted_second_step]

/-- Both windows of the burst state are at their limit at time 10; the
computed sleep is 590, the larger of the two expiry times. -/
theorem rlBursted_check : rlBursted.acquireCheck 10 =
    .waiting (⟨2, 2, [0, 5], [0, 5]⟩ : RateLimiter) 590 := by
  rw [rlBursted_eq]
  norm_num [RateLimiter.acquireCheck, evictWindow, List.dropWhile_cons]
  simp

/-- C5 (counterexample): with limits 2 and 2 after grants at times 0 and 5,
the check at time 10 finds both windows full; the oldest short-window entry
expires in 0 seconds and the oldest long-window entry in 590 seconds, yet
the computed sleep is 590 — the larger of the two, not the smaller as the
claim states. -/
theorem C5_sleep_not_smaller :
    rlBursted.acquireCheck 10 = .waiting (⟨2, 2, [0, 5], [0, 5]⟩ : RateLimiter) 590 ∧
    (590 : ℚ) ≠ min (10 - ((10 : ℚ) - 0)) (600 - ((10 : ℚ) - 0)) := by
  refine ⟨rlBursted_check, ?_⟩
  rw [min_eq_left (by norm_num)]
  norm_num

/-- C5 (amended): when acquire cannot grant, the computed sleep equals the
largest of 0.1 seconds and the expiry times of the windows that are at
their limit (a window below its limit, or with an empty deque, contributes
nothing), not the smallest. -/
theorem C5_amended_sleep_is_largest (rl : RateLimiter) (now w : ℚ) (rl2 : RateLimiter)
    (h : rl.acquireCheck now = .waiting rl2 w) :
    w = max (1 / 10)
      (max
        (if rl.requests_per_10_sec ≤ (evictWindow 10 now rl.request_times_10_sec).length ∧
            evictWindow 10 now rl.request_times_10_sec ≠ []
         then 10 - (now - (evictWindow 10 now rl.request_times_10_sec).headI) else 1 / 10)
        (if rl.requests_per_10_min ≤ (evictWindow 600 now rl.request_times_10_min).length ∧
            evictWindow 600 now rl.request_times_10_min ≠ []
         then 600 - (now - (evictWindow 600 now rl.request_times_10_min).headI) else 1 / 10)) := by
  simp only [RateLimiter.acquireCheck, not_lt] at h
  by_cases f10 : rl.requests_per_10_sec ≤ (evictWindow 10 now rl.request_times_10_sec).length ∧
      evictWindow 10 now rl.request_times_10_sec ≠ []
  · by_cases f600 : rl.requests_per_10_min ≤ (evictWindow 600 now rl.request_times_10_min).length ∧
        evictWindow 600 now rl.request_times_10_min ≠ []
    · rw [if_neg (by omega : ¬ ((evictWindow 10 now rl.request_times_10_sec).length <
          rl.requests_per_10_sec ∧ (evictWindow 600 now rl.request_times_10_min).length <
          rl.requests_per_10_min)), if_pos f10, if_pos f600] at h
      injection h with h1 h2
      rw [← h2, if_pos f10, if_pos f600, max_assoc]
    · rw [if_neg (by omega : ¬ ((evictWindow 10 now rl.request_times_10_sec).length <
          rl.requests_per_10_sec ∧ (evictWindow 600 now rl.request_times_10_min).length <
          rl.requests_per_10_min)), if_pos f10, if_neg f600] at h
      injection h with h1 h2
      rw [← h2, if_pos f10, if_neg f600]
      rw [max_comm (10 - (now - (evictWindow 10 now rl.request_times_10_sec).headI))
        ((1 : ℚ) / 10), ← max_assoc, max_self]
  · by_cases f600 : rl.requests_per_10_min ≤ (evictWindow 600 now rl.request_times_10_min).length ∧
        evictWindow 600 now rl.request_times_10_min ≠ []
    · by_cases hcan : (evictWindow 10 now rl.request_times_10_sec).length <
          rl.requests_per_10_sec ∧ (evictWindow 600 now rl.request_times_10_min).length <
          rl.requests_per_10_min
      · rw [if_pos hcan] at h
        exact absurd h (by simp)
      · rw [if_neg hcan, if_neg f10, if_pos f600] at h
        injection h with h1 h2
        rw [← h2, if_neg f10, if_pos f600, ← max_assoc, max_self]
    · by_cases hcan : (evictWindow 10 now rl.request_times_10_sec).length <
          rl.requests_per_10_sec ∧ (evictWindow 600 now rl.request_times_10_min).length <
          rl.requests_per_10_min
      · rw [if_pos hcan] at h
        exact absurd h (by simp)
      · rw [if_neg hcan, if_neg f10, if_neg f600] at h
        injection h with h1 h2
        rw [← h2, if_neg f10, if_neg f600, max_self, max_self]

/-- Concrete instantiation of the amended C5 theorem at the burst state. -/
theorem C5_amended_sleep_witness :
    (590 : ℚ) = max (1 / 10)
      (max
        (if (2 : Nat) ≤ (evictWindow 10 10 rlBursted.request_times_10_sec).length ∧
            evictWindow 10 10 rlBursted.request_times_10_sec ≠ []
         then 10 - (10 - (evictWindow 10 10 rlBursted.request_times_10_sec).headI) else 1 / 10)
        (if (2 : Nat) ≤ (evictWindow 600 10 rlBursted.request_times_10_min).length ∧
            evictWindow 600 10 rlBursted.request_times_10_min ≠ []
         then 600 - (10 - (evictWindow 600 10 rlBursted.request_times_10_min).headI)
         else 1 / 10)) := by
  have h := C5_amended_sleep_is_largest rlBursted 10 590
    (⟨2, 2, [0, 5], [0, 5]⟩ : RateLimiter) rlBursted_check
  simpa [rlBursted_eq] using h

/-! ### Rate limiter window-bound theorems -/

/-- On an ascending list, popping expired entries from the front removes
exactly the expired entries. -/
theorem dropWhile_lt_eq_filter (c : ℚ) :
    ∀ l : List ℚ, l.Sorted (· ≤ ·) →
      l.dropWhile (fun t => decide (t < c)) = l.filter (fun t => decide (c ≤ t))
  | [], _ => rfl
  | x :: xs, h => by
    obtain ⟨hx, hs⟩ := List.sorted_cons.mp h
    by_cases hxc : x < c
    · simp only [List.dropWhile_cons, List.filter_cons, decide_eq_true_eq, hxc, if_pos,
        not_le.mpr hxc, decide_False, Bool.false_eq_true, if_false]
      exact dropWhile_lt_eq_filter c xs hs
    · have hcx : c ≤ x := not_lt.mp hxc
      simp only [List.dropWhile_cons, List.filter_cons, decide_eq_true_eq, hxc, if_false,
        hcx, decide_True, if_true]
      rw [List.filter_eq_self.mpr]
      intro y hy
      simp only [decide_eq_true_eq]
      exact le_trans hcx (hx y hy)

/-- Evicting at a later inspection time from a deque of in-window grants
leaves exactly the grants still inside the window. -/
theorem evictWindow_filter (W tl now : ℚ) (g : List ℚ) (hg : g.Sorted (· ≤ ·))
    (hle : tl ≤ now) :
    evictWindow W now (g.filter (fun x => decide (tl - x ≤ W))) =
      g.filter (fun x => decide (now - x ≤ W)) := by
  have hpred : (fun t : ℚ => decide (W < now - t)) = (fun t => decide (t < now - W)) := by
    funext t
    exact decide_eq_decide.mpr (by constructor <;> intro <;> linarith)
  unfold evictWindow
  rw [hpred, dropWhile_lt_eq_filter (now - W) _ (List.Pairwise.filter _ hg),
    List.filter_filter]
  apply List.filter_congr
  intro x hx
  rw [← Bool.decide_and]
  apply decide_eq_decide.mpr
  constructor
  · rintro ⟨h1, h2⟩
    linarith
  · intro h1
    constructor <;> linarith

/-- A granted check preserves the limiter invariant, extends the grant list
and certifies that both windows had room. -/
theorem acquireCheck_granted_inv (N10 N600 : Nat) (g : List ℚ) (tl now : ℚ)
    (rl rl2 : RateLimiter) (hinv : RLInv N10 N600 g tl rl) (hle : tl ≤ now)
    (h : rl.acquireCheck now = .granted rl2) :
    RLInv N10 N600 (g ++ [now]) now rl2 ∧
    (g.filter (fun x => decide (now - x ≤ 10))).length < N10 ∧
    (g.filter (fun x => decide (now - x ≤ 600))).length < N600 := by
  obtain ⟨hN10, hN600, hsort, hbnd, hd10, hd600⟩ := hinv
  have he10 : evictWindow 10 now rl.request_times_10_sec =
      g.filter (fun x => decide (now - x ≤ 10)) := by
    rw [hd10]; exact evictWindow_filter 10 tl now g hsort hle
  have he600 : evictWindow 600 now rl.request_times_10_min =
      g.filter (fun x => decide (now - x ≤ 600)) := by
    rw [hd600]; exact evictWindow_filter 600 tl now g hsort hle
  simp only [RateLimiter.acquireCheck, he10, he600] at h
  by_cases hcan : (g.filter (fun x => decide (now - x ≤ 10))).length < rl.requests_per_10_sec ∧
      (g.filter (fun x => decide (now - x ≤ 600))).length < rl.requests_per_10_min
  · rw [if_pos hcan] at h
    injection h with h2
    subst h2
    refine ⟨⟨hN10, hN600, ?_, ?_, ?_, ?_⟩, hN10 ▸ hcan.1, hN600 ▸ hcan.2⟩
    · show List.Pairwise (· ≤ ·) (g ++ [now])
      rw [List.pairwise_append]
      exact ⟨hsort, List.pairwise_singleton _ _, fun x hx y hy => by
        rw [List.mem_singleton] at hy
        subst hy
        exact le_trans (hbnd x hx) hle⟩
    · intro x hx
      rcases List.mem_append.mp hx with hx | hx
      · exact le_trans (hbnd x hx) hle
      · rw [List.mem_singleton] at hx
        subst hx
        exact le_rfl
    · show g.filter (fun x => decide (now - x ≤ 10)) ++ [now] = _
      rw [List.filter_append]
      congr 1
      simp
    · show g.filter (fun x => decide (now - x ≤ 600)) ++ [now] = _
      rw [List.filter_append]
      congr 1
      simp
  · rw [if_neg hcan] at h
    exact absurd h (by simp)

/-- A refused check only evicts: the invariant advances to the new
inspection time with the same grant list. -/
theorem acquireCheck_waiting_inv (N10 N600 : Nat) (g : List ℚ) (tl now : ℚ)
    (rl rl2 : RateLimiter) (w : ℚ) (hinv : RLInv N10 N600 g tl rl) (hle : tl ≤ now)
    (h : rl.acquireCheck now = .waiting rl2 w) :
    RLInv N10 N600 g now rl2 := by
  obtain ⟨hN10, hN600, hsort, hbnd, hd10, hd600⟩ := hinv
  have he10 : evictWindow 10 now rl.request_times_10_sec =
      g.filter (fun x => decide (now - x ≤ 10)) := by
    rw [hd10]; exact evictWindow_filter 10 tl now g hsort hle
  have he600 : evictWindow 600 now rl.request_times_10_min =
      g.filter (fun x => decide (now - x ≤ 600)) := by
    rw [hd600]; exact evictWindow_filter 600 tl now g hsort hle
  simp only [RateLimiter.acquireCheck, he10, he600] at h
  by_cases hcan : (g.filter (fun x => decide (now - x ≤ 10))).length < rl.requests_per_10_sec ∧
      (g.filter (fun x => decide (now - x ≤ 600))).length < rl.requests_per_10_min
  · rw [if_pos hcan] at h
    exact absurd h (by simp)
  · rw [if_neg hcan] at h
    injection h with h1 h2
    subst h1
    exact ⟨hN10, hN600, hsort, fun x hx => le_trans (hbnd x hx) hle, rfl, rfl⟩

/-- Appending a grant that had room in its window keeps every sliding
window of that width at or below the limit. -/
theorem countP_window_le (W : ℚ) (N : Nat) (g : List ℚ) (now : ℚ)
    (hbnd : ∀ x ∈ g, x ≤ now)
    (hcnt : ∀ a, g.countP (inWin W a) ≤ N)
    (hlen : (g.filter (fun x => decide (now - x ≤ W))).length < N) (a : ℚ) :
    (g ++ [now]).countP (inWin W a) ≤ N := by
  rw [List.countP_append]
  by_cases hin : inWin W a now = true
  · have hnow : a ≤ now ∧ now ≤ a + W := by
      rw [inWin, Bool.and_eq_true, decide_eq_true_eq, decide_eq_true_eq] at hin
      exact hin
    have hsub : g.countP (inWin W a) ≤ g.countP (fun x => decide (now - x ≤ W)) := by
      apply List.countP_mono_left
      intro x hx hpx
      rw [inWin, Bool.and_eq_true, decide_eq_true_eq, decide_eq_true_eq] at hpx
      rw [decide_eq_true_eq]
      linarith [hnow.2, hpx.1]
    have hfl : g.countP (fun x => decide (now - x ≤ W)) =
        (g.filter (fun x => decide (now - x ≤ W))).length :=
      List.countP_eq_length_filter _ _
    have h1 : (List.countP (inWin W a) [now]) ≤ 1 := by
      rw [List.countP_cons, List.countP_nil]
      split_ifs <;> omega
    omega
  · have h0 : (List.countP (inWin W a) [now]) = 0 := by
      rw [List.countP_cons, List.countP_nil]
      rw [if_neg (by simpa using hin)]
    rw [h0]
    simpa using hcnt a

/-- Running a monotone stream of acquire checks keeps the invariant and
every sliding window of either width within its limit. -/
theorem runAttempts_invariant (N10 N600 : Nat) :
    ∀ (ts g : List ℚ) (tl : ℚ) (rl : RateLimiter),
      ts.Sorted (· ≤ ·) → (∀ t ∈ ts, tl ≤ t) → RLInv N10 N600 g tl rl →
      (∀ a, g.countP (inWin 10 a) ≤ N10) → (∀ a, g.countP (inWin 600 a) ≤ N600) →
      (∃ tl2, RLInv N10 N600 (g ++ (rl.runAttempts ts).2) tl2 (rl.runAttempts ts).1) ∧
      (∀ a, (g ++ (rl.runAttempts ts).2).countP (inWin 10 a) ≤ N10) ∧
      (∀ a, (g ++ (rl.runAttempts ts).2).countP (inWin 600 a) ≤ N600)
  | [], g, tl, rl, _, _, hinv, hc10, hc600 => by
    refine ⟨⟨tl, ?_⟩, ?_, ?_⟩
    · simpa [RateLimiter.runAttempts] using hinv
    · simpa [RateLimiter.runAttempts] using hc10
    · simpa [RateLimiter.runAttempts] using hc600
  | t :: ts, g, tl, rl, hs, hlb, hinv, hc10, hc600 => by
    obtain ⟨hrel, hs2⟩ := List.sorted_cons.mp hs
    have hlt : tl ≤ t := hlb t (List.mem_cons_self t ts)
    have hbnd : ∀ x ∈ g, x ≤ t := fun x hx => le_trans (hinv.2.2.2.1 x hx) hlt
    cases hstep : rl.acquireCheck t with
    | granted rl2 =>
      obtain ⟨hinv2, hl10, hl600⟩ :=
        acquireCheck_granted_inv N10 N600 g tl t rl rl2 hinv hlt hstep
      have ih := runAttempts_invariant N10 N600 ts (g ++ [t]) t rl2 hs2 hrel hinv2
        (countP_window_le 10 N10 g t hbnd hc10 hl10)
        (countP_window_le 600 N600 g t hbnd hc600 hl600)
      simp only [RateLimiter.runAttempts, hstep]
      have hassoc : ∀ rest : List ℚ, (g ++ [t]) ++ rest = g ++ (t :: rest) := by
        intro rest
        simp
      rw [hassoc] at ih
      exact ih
    | waiting rl2 w =>
      have hinv2 := acquireCheck_waiting_inv N10 N600 g tl t rl rl2 w hinv hlt hstep
      have ih := runAttempts_invariant N10 N600 ts g t rl2 hs2 hrel hinv2 hc10 hc600
      simp only [RateLimiter.runAttempts, hstep]
      exact ih

/-- C2: for any ascending sequence of acquire checks from a fresh limiter,
the deque of either window never exceeds its limit — in particular at the
instant of every successful acquire — and no sliding window of width 10
(respectively 600) contains more grants than the corresponding limit. -/
theorem C2_rate_limiter_window_bounds (n10 n600 : Nat) (ts : List ℚ)
    (hs : ts.Sorted (· ≤ ·)) :
    (((RateLimiter.init n10 n600).runAttempts ts).1.request_times_10_sec.length ≤ n10 ∧
     ((RateLimiter.init n10 n600).runAttempts ts).1.request_times_10_min.length ≤ n600) ∧
    (∀ a : ℚ, ((RateLimiter.init n10 n600).runAttempts ts).2.countP (inWin 10 a) ≤ n10) ∧
    (∀ a : ℚ, ((RateLimiter.init n10 n600).runAttempts ts).2.countP (inWin 600 a) ≤ n600) := by
  cases ts with
  | nil =>
    refine ⟨⟨?_, ?_⟩, ?_, ?_⟩ <;> simp [RateLimiter.runAttempts, RateLimiter.init]
  | cons t0 rest =>
    have hlb : ∀ t ∈ t0 :: rest, t0 ≤ t := by
      intro t ht
      rcases List.mem_cons.mp ht with h | h
      · exact h ▸ le_rfl
      · exact (List.sorted_cons.mp hs).1 t h
    have hinv0 : RLInv n10 n600 [] t0 (RateLimiter.init n10 n600) := by
      refine ⟨rfl, rfl, List.sorted_nil, by simp, by simp [RateLimiter.init], by
        simp [RateLimiter.init]⟩
    have h := runAttempts_invariant n10 n600 (t0 :: rest) [] t0 (RateLimiter.init n10 n600)
      hs hlb hinv0 (by simp) (by simp)
    obtain ⟨⟨tl2, hN10, hN600, hsort, hbnd, hd10, hd600⟩, hc10, hc600⟩ := h
    simp only [List.nil_append] at hd10 hd600 hc10 hc600
    refine ⟨⟨?_, ?_⟩, hc10, hc600⟩
    · rw [hd10, ← List.countP_eq_length_filter]
      refine le_trans (List.countP_mono_left ?_) (hc10 (tl2 - 10))
      intro x hx hpx
      rw [decide_eq_true_eq] at hpx
      rw [inWin, Bool.and_eq_true, decide_eq_true_eq, decide_eq_true_eq]
      have := hbnd x hx
      constructor <;> linarith
    · rw [hd600, ← List.countP_eq_length_filter]
      refine le_trans (List.countP_mono_left ?_) (hc600 (tl2 - 600))
      intro x hx hpx
      rw [decide_eq_true_eq] at hpx
      rw [inWin, Bool.and_eq_true, decide_eq_true_eq, decide_eq_true_eq]
      have := hbnd x hx
      constructor <;> linarith

/-- Concrete instantiation of the C2 theorem: limits 1 and 1, checks at
times 0, 1 and 2. -/
theorem C2_rate_limiter_witness :
    (((RateLimiter.init 1 1).runAttempts [0, 1, 2]).1.request_times_10_sec.length ≤ 1 ∧
     ((RateLimiter.init 1 1).runAttempts [0, 1, 2]).1.request_times_10_min.length ≤ 1) ∧
    (∀ a : ℚ, ((RateLimiter.init 1 1).runAttempts [0, 1, 2]).2.countP (inWin 10 a) ≤ 1) ∧
    (∀ a : ℚ, ((RateLimiter.init 1 1).runAttempts [0, 1, 2]).2.countP (inWin 600 a) ≤ 1) :=
  C2_rate_limiter_window_bounds 1 1 [0, 1, 2]
    (by norm_num [List.sorted_cons])

/-! ### Crawl engine termination theorems -/

/-- A run that finishes within its fuel finishes identically with one more
unit of fuel: the fuel bound is a modelling artifact, not a behaviour. -/
theorem scrapeLoop_fuel_mono (cfg : ScrapeCfg) (env : ScrapeEnv) (sch : Nat → List Nat)
    (maxM : Option Nat) :
    ∀ (fuel bi sc : Nat) (s : SState) (q : List String) (ms : List MatchRec) (er : Nat)
      (r : List MatchRec × SState × Nat),
      scrapeLoop cfg env sch maxM fuel bi sc s q ms er = some r →
      scrapeLoop cfg env sch maxM (fuel + 1) bi sc s q ms er = some r
  | 0, _, _, _, _, _, _, _, h => absurd h (by simp [scrapeLoop])
  | fuel + 1, bi, sc, s, q, ms, er, r, h => by
    simp only [scrapeLoop] at h ⊢
    by_cases h1 : isAtTarget maxM ms
    · rw [if_pos h1] at h ⊢
      exact h
    · rw [if_neg h1] at h ⊢
      by_cases h2 : q = []
      · rw [if_pos h2] at h ⊢
        by_cases h3 : 5 ≤ er + 1
        · rw [if_pos h3] at h ⊢
          exact h
        · rw [if_neg h3] at h ⊢
          by_cases h4 : (enqueueAll s [] (env.seeds sc)).2 = []
          · rw [if_pos h4] at h ⊢
            exact scrapeLoop_fuel_mono cfg env sch maxM fuel bi (sc + 1) _ [] ms (er + 1) r h
          · rw [if_neg h4] at h ⊢
            exact scrapeLoop_fuel_mono cfg env sch maxM fuel bi (sc + 1) _ _ ms 0 r h
      · rw [if_neg h2] at h ⊢
        exact scrapeLoop_fuel_mono cfg env sch maxM fuel (bi + 1) sc _ _ _ _ r h

/-- Fuel monotonicity lifted to the public entry point. -/
theorem scrape_window_fuel_mono (cfg : ScrapeCfg) (env : ScrapeEnv) (sch : Nat → List Nat)
    (fuel : Nat) (s0 : SState) (seeds : List String) (maxM : Option Nat)
    (r : List MatchRec × SState × Nat)
    (h : scrape_matches_by_date_window cfg env sch fuel s0 seeds maxM = some r) :
    scrape_matches_by_date_window cfg env sch (fuel + 1) s0 seeds maxM = some r := by
  simp only [scrape_matches_by_date_window] at h ⊢
  split_ifs at h ⊢ with h1
  exact scrapeLoop_fuel_mono cfg env sch maxM fuel 0 0 _ _ [] 0 r h

/-- C3 (counterexample): in the exhaustion scenario — three seeds, a
match-id fetch that always returns nothing and a seed provider that always
returns nothing — the job performs exactly 3 seed-provider refill attempts
before giving up, not emptyRoundThreshold = 5: the dry seed batch already
consumes one of the five empty rounds and the fifth round breaks out before
refilling. -/
theorem C3_three_not_five_refills :
    (scrape_matches_by_date_window {} envExhausted (fun _ => []) 12 {}
      ["c1", "c2", "c3"] (some 10)).map (fun r => r.2.2) = some 3 ∧ (3 : Nat) ≠ 5 :=
  ⟨rfl, by decide⟩

/-- C3 (amended): the exhaustion scenario terminates — under every
sufficient fuel bound it returns the same completed run — with an empty
result list, after exactly 3 seed-provider refill attempts (of the 5
consecutive empty rounds, the first is the dry seed batch and the last
breaks out before refilling). -/
theorem C3_exhaustion_terminates (d : Nat) :
    (scrape_matches_by_date_window {} envExhausted (fun _ => []) (12 + d) {}
      ["c1", "c2", "c3"] (some 10)).map (fun r => (r.1, r.2.2)) = some ([], 3) := by
  induction d with
  | zero => rfl
  | succ n ih =>
    cases hx : scrape_matches_by_date_window {} envExhausted (fun _ => []) (12 + n) {}
        ["c1", "c2", "c3"] (some 10) with
    | none => rw [hx] at ih; simp at ih
    | some r =>
      have hmono := scrape_window_fuel_mono {} envExhausted (fun _ => []) (12 + n) {}
        ["c1", "c2", "c3"] (some 10) r hx
      have hstep : 12 + (n + 1) = (12 + n) + 1 := rfl
      rw [hstep, hmono]
      rw [hx] at ih
      exact ih

/-- Concrete instantiation of the amended C3 theorem at the smallest
sufficient fuel. -/
theorem C3_exhaustion_witness :
    (scrape_matches_by_date_window {} envExhausted (fun _ => []) (12 + 0) {}
      ["c1", "c2", "c3"] (some 10)).map (fun r => (r.1, r.2.2)) = some ([], 3) :=
  C3_exhaustion_terminates 0

/-! ### Crawl engine target-count theorems -/

/-- The result-processing loop never pushes the collected list past the
target: each chunk is truncated to the remaining room. -/
theorem foldResults_length_le (mx : Nat) :
    ∀ (results : List (Option (List MatchRec × List String))) (ms : List MatchRec)
      (q : List String) (s : SState) (bn : Nat), ms.length ≤ mx →
      (foldResults (some mx) results ms q s bn).1.length ≤ mx
  | [], _, _, _, _, h => h
  | none :: rest, ms, q, s, bn, h => foldResults_length_le mx rest ms q s bn h
  | some (nm, np) :: rest, ms, q, s, bn, h => by
    simp only [foldResults]
    have hlen : (ms ++ nm.take (mx - ms.length)).length ≤ mx := by
      rw [List.length_append, List.length_take]
      omega
    split_ifs
    · exact hlen
    · exact foldResults_length_le mx rest _ _ _ _ hlen

/-- Throughout the loop the collected list stays within the target. -/
theorem scrapeLoop_length_le (cfg : ScrapeCfg) (env : ScrapeEnv) (sch : Nat → List Nat)
    (mx : Nat) :
    ∀ (fuel bi sc : Nat) (s : SState) (q : List String) (ms : List MatchRec) (er : Nat)
      (r : List MatchRec × SState × Nat), ms.length ≤ mx →
      scrapeLoop cfg env sch (some mx) fuel bi sc s q ms er = some r →
      r.1.length ≤ mx
  | 0, _, _, _, _, _, _, _, _, h => absurd h (by simp [scrapeLoop])
  | fuel + 1, bi, sc, s, q, ms, er, r, hms, h => by
    simp only [scrapeLoop] at h
    by_cases h1 : isAtTarget (some mx) ms
    · rw [if_pos h1] at h
      injection h with h2
      rw [← h2]
      exact hms
    · rw [if_neg h1] at h
      by_cases h2 : q = []
      · rw [if_pos h2] at h
        by_cases h3 : 5 ≤ er + 1
        · rw [if_pos h3] at h
          injection h with h4
          rw [← h4]
          exact hms
        · rw [if_neg h3] at h
          by_cases h4 : (enqueueAll s [] (env.seeds sc)).2 = []
          · rw [if_pos h4] at h
            exact scrapeLoop_length_le cfg env sch mx fuel bi (sc + 1) _ [] ms (er + 1) r hms h
          · rw [if_neg h4] at h
            exact scrapeLoop_length_le cfg env sch mx fuel bi (sc + 1) _ _ ms 0 r hms h
      · rw [if_neg h2] at h
        exact scrapeLoop_length_le cfg env sch mx fuel (bi + 1) sc _ _ _ _ r
          (foldResults_length_le mx _ ms _ _ 0 hms) h

/-- C8: every run with a target count returns at most that many match
records, and the target-count scenario — target 5, two seeds with three
fresh on-target matches each — completes with exactly 5 records even though
6 are fetchable. -/
theorem C8_target_count_cap :
    (∀ (cfg : ScrapeCfg) (env : ScrapeEnv) (sch : Nat → List Nat) (fuel : Nat)
      (s0 : SState) (seeds : List String) (mx : Nat) (r : List MatchRec × SState × Nat),
      scrape_matches_by_date_window cfg env sch fuel s0 seeds (some mx) = some r →
      r.1.length ≤ mx) ∧
    (scrape_matches_by_date_window {} envTarget (fun _ => []) 10 {} ["a", "b"]
      (some 5)).map (fun r => r.1.length) = some 5 := by
  constructor
  · intro cfg env sch fuel s0 seeds mx r h
    simp only [scrape_matches_by_date_window] at h
    split_ifs at h with h1
    exact scrapeLoop_length_le cfg env sch mx fuel 0 0 _ _ [] 0 r (by simp) h
  · rfl

/-- Concrete instantiation of the C8 cap: the scenario run itself stays at
or below its target of 5. -/
theorem C8_target_count_witness :
    ((scrape_matches_by_date_window {} envTarget (fun _ => []) 10 {} ["a", "b"]
      (some 5)).getD ⟨[], {}, 0⟩).1.length ≤ 5 :=
  C8_target_count_cap.1 {} envTarget (fun _ => []) 10 {} ["a", "b"] 5 _ rfl

/-! ### Crawl engine dedup theorems -/

/-- The detail-processing loop only grows the global match-id set and never
touches the fetch log. -/
theorem detailsLoop_fetchOk (cfg : ScrapeCfg) (env : ScrapeEnv) (S0 : List String) :
    ∀ (mids : List String) (s : SState) (ms : List MatchRec) (ps : List String),
      FetchOk S0 s → FetchOk S0 (detailsLoop cfg env mids s ms ps).1
  | [], _, _, _, h => h
  | mid :: rest, s, ms, ps, h => by
    simp only [detailsLoop]
    cases env.detail mid with
    | none => exact detailsLoop_fetchOk cfg env S0 rest s ms ps h
    | some mtch =>
      dsimp only
      split_ifs
      · refine detailsLoop_fetchOk cfg env S0 rest _ _ _ ⟨?_, h.2⟩
        intro x hx
        exact List.mem_append_left _ (h.1 x hx)
      · exact detailsLoop_fetchOk cfg env S0 rest s ms ps h

/-- One coroutine segment preserves the pre-loaded-id relation: the only
additions to the fetch log are ids that just passed the
not-in-scraped_match_ids filter. -/
theorem taskStep_fetchOk (cfg : ScrapeCfg) (env : ScrapeEnv) (limit : Nat) (p : String)
    (S0 : List String) (s : SState) (ph : TaskPhase) (h : FetchOk S0 s) :
    FetchOk S0 (taskStep cfg env limit p s ph).1 := by
  cases ph with
  | start =>
    simp only [taskStep]
    split_ifs
    · exact h
    · exact ⟨h.1, h.2⟩
  | awaitingIds =>
    simp only [taskStep]
    split_ifs
    · exact h
    · exact h
    · refine ⟨h.1, ?_⟩
      intro m hm
      rcases List.mem_append.mp hm with hm | hm
      · exact h.2 m hm
      · have hf := List.mem_of_mem_take hm
        have hmem := List.of_mem_filter hf
        rw [decide_eq_true_eq] at hmem
        intro hS0
        exact hmem (h.1 m hS0)
  | awaitingDetails newIds =>
    exact detailsLoop_fetchOk cfg env S0 newIds s [] [] h
  | done r => exact h

/-- Advancing any scheduled task preserves the relation. -/
theorem stepTaskAt_fetchOk (cfg : ScrapeCfg) (env : ScrapeEnv) (limit : Nat)
    (S0 : List String) (st : SState × List (String × TaskPhase)) (i : Nat)
    (h : FetchOk S0 st.1) : FetchOk S0 (stepTaskAt cfg env limit st i).1 := by
  simp only [stepTaskAt]
  cases hg : st.2.get? i with
  | none => exact h
  | some pp => exact taskStep_fetchOk cfg env limit pp.1 S0 st.1 pp.2 h

/-- Any interleaving schedule preserves the relation. -/
theorem runSchedule_fetchOk (cfg : ScrapeCfg) (env : ScrapeEnv) (limit : Nat)
    (S0 : List String) :
    ∀ (sched : List Nat) (st : SState × List (String × TaskPhase)),
      FetchOk S0 st.1 → FetchOk S0 (runSchedule cfg env limit sched st).1
  | [], _, h => h
  | i :: rest, st, h =>
    runSchedule_fetchOk cfg env limit S0 rest _ (stepTaskAt_fetchOk cfg env limit S0 st i h)

/-- Running one task to completion preserves the relation. -/
theorem taskRunToDone_fetchOk (cfg : ScrapeCfg) (env : ScrapeEnv) (limit : Nat)
    (p : String) (S0 : List String) (s : SState) (ph : TaskPhase) (h : FetchOk S0 s) :
    FetchOk S0 (taskRunToDone cfg env limit p s ph).1 := by
  simp only [taskRunToDone]
  have h1 := taskStep_fetchOk cfg env limit p S0 s ph h
  have h2 := taskStep_fetchOk cfg env limit p S0 _ (taskStep cfg env limit p s ph).2 h1
  have h3 := taskStep_fetchOk cfg env limit p S0 _
    (taskStep cfg env limit p (taskStep cfg env limit p s ph).1
      (taskStep cfg env limit p s ph).2).2 h2
  split <;> exact h3

/-- Finishing the gathered batch preserves the relation. -/
theorem finishAll_fetchOk (cfg : ScrapeCfg) (env : ScrapeEnv) (limit : Nat)
    (S0 : List String) :
    ∀ (tasks : List (String × TaskPhase)) (s : SState),
      FetchOk S0 s → FetchOk S0 (finishAll cfg env limit s tasks).1
  | [], _, h => h
  | (p, ph) :: rest, s, h =>
    finishAll_fetchOk cfg env limit S0 rest _
      (taskRunToDone_fetchOk cfg env limit p S0 s ph h)

/-- A whole scheduled batch preserves the relation. -/
theorem runBatch_fetchOk (cfg : ScrapeCfg) (env : ScrapeEnv) (limit : Nat)
    (sched : List Nat) (batch : List String) (S0 : List String) (s : SState)
    (h : FetchOk S0 s) : FetchOk S0 (runBatch cfg env limit sched batch s).1 := by
  simp only [runBatch]
  exact finishAll_fetchOk cfg env limit S0 _ _
    (runSchedule_fetchOk cfg env limit S0 sched _ h)

/-- Enqueueing participants touches neither the match-id set nor the log. -/
theorem enqueueAll_fields :
    ∀ (ps : List String) (s : SState) (q : List String),
      (enqueueAll s q ps).1.scraped_match_ids = s.scraped_match_ids ∧
      (enqueueAll s q ps).1.fetchLog = s.fetchLog
  | [], _, _ => ⟨rfl, rfl⟩
  | p :: rest, s, q => by
    simp only [enqueueAll]
    split_ifs
    · exact enqueueAll_fields rest _ _
    · exact enqueueAll_fields rest s q

theorem enqueueAll_fetchOk (ps : List String) (s : SState) (q : List String)
    (S0 : List String) (h : FetchOk S0 s) : FetchOk S0 (enqueueAll s q ps).1 := by
  obtain ⟨h1, h2⟩ := enqueueAll_fields ps s q
  exact ⟨fun x hx => h1 ▸ h.1 x hx, fun m hm => h.2 m (h2 ▸ hm)⟩

/-- Result processing preserves the relation. -/
theorem foldResults_fetchOk (maxM : Option Nat) :
    ∀ (results : List (Option (List MatchRec × List String))) (ms : List MatchRec)
      (q : List String) (s : SState) (bn : Nat) (S0 : List String),
      FetchOk S0 s → FetchOk S0 (foldResults maxM results ms q s bn).2.2.1
  | [], _, _, _, _, _, h => h
  | none :: rest, ms, q, s, bn, S0, h => foldResults_fetchOk maxM rest ms q s bn S0 h
  | some (nm, np) :: rest, ms, q, s, bn, S0, h => by
    simp only [foldResults]
    split_ifs
    · exact enqueueAll_fetchOk np s q S0 h
    · exact foldResults_fetchOk maxM rest _ _ _ _ S0 (enqueueAll_fetchOk np s q S0 h)

/-- The whole crawl loop preserves the relation into its returned state. -/
theorem scrapeLoop_fetchOk (cfg : ScrapeCfg) (env : ScrapeEnv) (sch : Nat → List Nat)
    (maxM : Option Nat) (S0 : List String) :
    ∀ (fuel bi sc : Nat) (s : SState) (q : List String) (ms : List MatchRec) (er : Nat)
      (r : List MatchRec × SState × Nat), FetchOk S0 s →
      scrapeLoop cfg env sch maxM fuel bi sc s q ms er = some r →
      FetchOk S0 r.2.1
  | 0, _, _, _, _, _, _, _, _, h => absurd h (by simp [scrapeLoop])
  | fuel + 1, bi, sc, s, q, ms, er, r, hok, h => by
    simp only [scrapeLoop] at h
    by_cases h1 : isAtTarget maxM ms
    · rw [if_pos h1] at h
      injection h with h2
      rw [← h2]
      exact hok
    · rw [if_neg h1] at h
      by_cases h2 : q = []
      · rw [if_pos h2] at h
        by_cases h3 : 5 ≤ er + 1
        · rw [if_pos h3] at h
          injection h with h4
          rw [← h4]
          exact hok
        · rw [if_neg h3] at h
          by_cases h4 : (enqueueAll s [] (env.seeds sc)).2 = []
          · rw [if_pos h4] at h
            exact scrapeLoop_fetchOk cfg env sch maxM S0 fuel bi (sc + 1) _ [] ms (er + 1) r
              (enqueueAll_fetchOk _ s [] S0 hok) h
          · rw [if_neg h4] at h
            exact scrapeLoop_fetchOk cfg env sch maxM S0 fuel bi (sc + 1) _ _ ms 0 r
              (enqueueAll_fetchOk _ s [] S0 hok) h
      · rw [if_neg h2] at h
        exact scrapeLoop_fetchOk cfg env sch maxM S0 fuel (bi + 1) sc _ _ _ _ r
          (foldResults_fetchOk maxM _ ms _ _ 0 S0
            (runBatch_fetchOk cfg env _ (sch bi) _ S0 s hok)) h

/-- Seeding only adds player ids. -/
theorem addSeeds_fields :
    ∀ (seeds : List String) (s : SState),
      (addSeeds s seeds).scraped_match_ids = s.scraped_match_ids ∧
      (addSeeds s seeds).fetchLog = s.fetchLog
  | [], _ => ⟨rfl, rfl⟩
  | p :: rest, s => by
    simp only [addSeeds]
    split_ifs
    · exact addSeeds_fields rest _
    · exact addSeeds_fields rest s

/-- C1 (counterexample): two concurrently processed candidates sharing the
match id m, interleaved so that both run their dedup check before either
records the id, both fetch m and the returned match list contains m twice —
the check and the insertion are not atomic and the result list is not
duplicate-free. -/
theorem C1_shared_match_fetched_twice :
    (scrape_matches_by_date_window {} envShared schShared 12 {} ["c1", "c2"] none).map
      (fun r => (r.1.map MatchRec.matchId, r.2.1.fetchLog)) = some (["m", "m"], ["m", "m"]) ∧
    ¬ ((["m", "m"] : List String).count "m" ≤ 1) :=
  ⟨rfl, by decide⟩

/-- C1 (amended): under every interleaving schedule, a match id already in
the global scraped_match_ids set at job start is never handed to a detail
fetch during the run; the per-candidate check and the post-fetch insertion
are not one atomic section, so candidates racing on a fresh id can both
fetch it, but pre-loaded ids are safe because the global set only grows. -/
theorem C1_preloaded_never_refetched (cfg : ScrapeCfg) (env : ScrapeEnv)
    (sch : Nat → List Nat) (fuel : Nat) (s0 : SState) (seeds : List String)
    (maxM : Option Nat) (r : List MatchRec × SState × Nat)
    (hlog : s0.fetchLog = [])
    (h : scrape_matches_by_date_window cfg env sch fuel s0 seeds maxM = some r) :
    ∀ mid ∈ s0.scraped_match_ids, mid ∉ r.2.1.fetchLog := by
  have hok : FetchOk s0.scraped_match_ids (addSeeds s0 seeds) := by
    obtain ⟨h1, h2⟩ := addSeeds_fields seeds s0
    refine ⟨fun x hx => h1 ▸ hx, fun m hm => ?_⟩
    rw [h2, hlog] at hm
    exact absurd hm (List.not_mem_nil m)
  simp only [scrape_matches_by_date_window] at h
  split_ifs at h with h1
  intro mid hmid hmem
  exact (scrapeLoop_fetchOk cfg env sch maxM s0.scraped_match_ids fuel 0 0 _ _ [] 0 r
    hok h).2 mid hmem hmid

/-- Concrete instantiation of the amended C1 theorem: the shared-match run
started with the pre-loaded id old never fetches old. -/
theorem C1_preloaded_witness :
    ("old" : String) ∉ ((runPreloaded.getD ⟨[], {}, 0⟩).2.1.fetchLog) :=
  C1_preloaded_never_refetched {} envShared schShared 12 sPreloaded ["c1", "c2"] none
    (runPreloaded.getD ⟨[], {}, 0⟩) rfl rfl "old" (by decide)

end Scraper
